import Mathlib

/-!
Shallow embedding of the calendar-conversion and time-index-resolution code of
`netcdftime/netcdftime.py`, together with proofs settling the specification
claims.  Float values are modelled by `ℚ` (the double arithmetic of the source
is exact at every branch point relevant to the claims); the numpy integer casts
`int(...)`, `np.int32(...)`, `np.int64(...)` applied to floats are modelled by
truncation toward zero, and `np.round`/`np.around` by rounding half to even.
All array-valued operations are embedded at scalar granularity (a single date /
a single julian day), exactly as the source behaves on a scalar input, where
`np.min(jd)` and `np.max(jd)` are the value itself and `ind_before` is empty or
a singleton.
-/

instance {ε α : Type} [DecidableEq ε] [DecidableEq α] : DecidableEq (Except ε α) := by
  intro a b
  cases a <;> cases b
  case error.error e f => exact decidable_of_iff (e = f) (by simp)
  case ok.ok x y => exact decidable_of_iff (x = y) (by simp)
  all_goals exact isFalse (by simp)

/-- Truncation toward zero: the semantics of `int(...)`, `np.int32(...)` and
`np.int64(...)` applied to a float value. -/
def itrunc (q : ℚ) : ℤ := if 0 ≤ q then ⌊q⌋ else -⌊-q⌋

/-- Rounding half to even: the semantics of `np.round` / `np.around`. -/
def nround (q : ℚ) : ℤ :=
  if q - ⌊q⌋ < 1/2 then ⌊q⌋
  else if 1/2 < q - ⌊q⌋ then ⌊q⌋ + 1
  else if 2 ∣ ⌊q⌋ then ⌊q⌋ else ⌊q⌋ + 1

/-- A civil date/time value: the seven fields of a (real or phony) datetime
object as read by the conversion routines. -/
structure Datetime where
  year : ℤ
  month : ℤ
  day : ℤ
  hour : ℤ
  minute : ℤ
  second : ℤ
  microsecond : ℤ
deriving DecidableEq

/-- The time of day folded into a fraction of a day, as in
`hour / 24.0 + minute / 1440.0 + (second + microsecond/1.e6) / 86400.0`
(netcdftime.py line 79 and the analogous lines of the fixed calendars). -/
def timeFrac (d : Datetime) : ℚ :=
  (d.hour : ℚ) / 24 + (d.minute : ℚ) / 1440 +
    ((d.second : ℚ) + (d.microsecond : ℚ) / 1000000) / 86400

/-- Scalar semantics of `JulianDayFromDate(date, calendar)`
(netcdftime.py lines 33-121).  On a scalar date `np.min(jd)` and `np.max(jd)`
are `jd` itself, so the mixed-calendar branch check compares the single
provisional day number against both cutover constants. -/
def JulianDayFromDate (date : Datetime) (calendar : String) : Except String ℚ :=
  let day : ℚ := (date.day : ℚ) + timeFrac date
  let month : ℤ := if date.month < 3 then date.month + 12 else date.month
  let year : ℤ := if date.month < 3 then date.year - 1 else date.year
  let A : ℤ := itrunc ((year : ℚ) / 100)
  let jd : ℚ := 365 * (year : ℚ) + (itrunc ((1/4 : ℚ) * (year : ℚ) + 2000) : ℚ) +
    (itrunc ((30.6001 : ℚ) * ((month : ℚ) + 1)) : ℚ) + day + 1718994.5
  if calendar = "standard" ∨ calendar = "gregorian" then
    if 2299170.5 ≤ jd then
      .ok (jd + ((2 - A + itrunc ((1/4 : ℚ) * (A : ℚ))) : ℤ))
    else if jd < 2299160.5 then
      .ok jd
    else
      .error "impossible date (falls in gap between end of Julian calendar and beginning of Gregorian calendar"
  else if calendar = "proleptic_gregorian" then
    .ok (jd + ((2 - A + itrunc ((1/4 : ℚ) * (A : ℚ))) : ℤ))
  else if calendar = "julian" then
    .ok jd
  else
    .error "unknown calendar, must be one of julian,standard,gregorian,proleptic_gregorian"

/-- `_NoLeapDayFromDate(date)` (netcdftime.py lines 124-150). -/
def NoLeapDayFromDate (date : Datetime) : ℚ :=
  let day : ℚ := (date.day : ℚ) + timeFrac date
  let month : ℤ := if date.month < 3 then date.month + 12 else date.month
  let year : ℤ := if date.month < 3 then date.year - 1 else date.year
  (itrunc (365 * ((year : ℚ) + 4716)) : ℚ) +
    (itrunc ((30.6001 : ℚ) * ((month : ℚ) + 1)) : ℚ) + day - 1524.5

/-- `_AllLeapFromDate(date)` (netcdftime.py lines 153-180). -/
def AllLeapFromDate (date : Datetime) : ℚ :=
  let day : ℚ := (date.day : ℚ) + timeFrac date
  let month : ℤ := if date.month < 3 then date.month + 12 else date.month
  let year : ℤ := if date.month < 3 then date.year - 1 else date.year
  (itrunc (366 * ((year : ℚ) + 4716)) : ℚ) +
    (itrunc ((30.6001 : ℚ) * ((month : ℚ) + 1)) : ℚ) + day - 1524.5

/-- `_360DayFromDate(date)` (netcdftime.py lines 183-204): no month shift, all
months 30 days. -/
def Day360FromDate (date : Datetime) : ℚ :=
  let day : ℚ := (date.day : ℚ) + timeFrac date
  (itrunc (360 * ((date.year : ℚ) + 4716)) : ℚ) +
    (itrunc (30 * ((date.month : ℚ) - 1)) : ℚ) + day

/-- The month of the computational (March-based) year used by the Meeus
formula: `month + 12` for January/February (netcdftime.py lines 82-83). -/
def mShift (d : Datetime) : ℤ := if d.month < 3 then d.month + 12 else d.month

/-- The computational year: `year - 1` for January/February (line 84). -/
def yShift (d : Datetime) : ℤ := if d.month < 3 then d.year - 1 else d.year

/-- The provisional day number `jd` of `JulianDayFromDate` (lines 91-92),
before the calendar-correction term B is added. -/
def jdBase (d : Datetime) : ℚ :=
  365 * (yShift d : ℚ) + (itrunc ((1/4 : ℚ) * (yShift d : ℚ) + 2000) : ℚ) +
    (itrunc ((30.6001 : ℚ) * ((mShift d : ℚ) + 1)) : ℚ) +
    ((d.day : ℚ) + timeFrac d) + 1718994.5

/-- The Gregorian correction term `B = 2 - A + np.int32(A / 4)` with
`A = np.int64(year / 100)` (lines 86, 100, 108). -/
def gregB (d : Datetime) : ℤ :=
  2 - itrunc ((yShift d : ℚ) / 100) +
    itrunc ((1/4 : ℚ) * ((itrunc ((yShift d : ℚ) / 100) : ℤ) : ℚ))

/-- Result record of the scalar `DateFromJulianDay`: the seven datetime fields,
the derived `dayofwk`/`dayofyr` fields, and the kind of object returned
(`real := true` for a real `datetime.datetime`, `false` for the phony
`netcdftime.datetime`; the real branch of the source simply does not pass the
two derived fields to the constructor, we keep them for uniformity). -/
structure DFJDResult where
  year : ℤ
  month : ℤ
  day : ℤ
  hour : ℤ
  minute : ℤ
  second : ℤ
  microsecond : ℤ
  dayofwk : ℤ
  dayofyr : ℤ
  real : Bool
deriving DecidableEq

/-- Scalar semantics of `DateFromJulianDay(JD, calendar)` (netcdftime.py lines
207-358).  For a scalar julian day the index set `ind_before` is empty or a
singleton, so `len(ind_before) == 0` is `¬ JD < 2299160.5`; `np.fmod` agrees
with `Int.emod` here because its dividend `np.int32(julian + 1.5)` is
nonnegative (`JD ≥ 0` was checked).  The check `calendar in
'proleptic_gregorian'` of line 337 is a Python substring test, embedded as the
list-infix test on the characters. -/
def DateFromJulianDay (JD : ℚ) (calendar : String) : Except String DFJDResult :=
  if JD < 0 then .error "Julian Day must be positive" else
  let dayofwk : ℤ := (itrunc (JD + 1.5)) % 7
  let Z : ℤ := nround (JD + 0.00005)
  let F : ℚ := JD + 0.5 - (Z : ℚ)
  let Ares : Except String ℤ :=
    if calendar = "standard" ∨ calendar = "gregorian" then
      let alpha : ℤ := itrunc ((((Z : ℚ) - 1867216) - 0.25) / 36524.25)
      let A : ℤ := Z + 1 + alpha - itrunc ((1/4 : ℚ) * (alpha : ℚ))
      if JD < 2299160.5 then .ok Z else .ok A
    else if calendar = "proleptic_gregorian" then
      let alpha : ℤ := itrunc ((((Z : ℚ) - 1867216) - 0.25) / 36524.25)
      .ok (Z + 1 + alpha - itrunc ((1/4 : ℚ) * (alpha : ℚ)))
    else if calendar = "julian" then .ok Z
    else .error "unknown calendar, must be one of julian,standard,gregorian,proleptic_gregorian"
  match Ares with
  | .error e => .error e
  | .ok A =>
    let B : ℤ := A + 1524
    let C : ℤ := itrunc (6680 + (((B : ℚ) - 2439870) - 122.1) / 365.25)
    let D : ℤ := 365 * C + itrunc ((1/4 : ℚ) * (C : ℚ))
    let E : ℤ := itrunc (((B : ℚ) - (D : ℚ)) / 30.6001)
    let day : ℚ := max ((B : ℚ) - (D : ℚ) - (itrunc ((30.6001 : ℚ) * (E : ℚ)) : ℚ) + F) 1
    let nday : ℤ := B - D - 123
    let dayofyr0 : ℤ := if nday ≤ 305 then nday + 60 else nday - 305
    let month0 : ℤ := E - 1
    let month : ℤ := if 12 < month0 then month0 - 12 else month0
    let year0 : ℤ := C - 4715
    let year1 : ℤ := if 2 < month then year0 - 1 else year0
    let year : ℤ := if year1 ≤ 0 then year1 - 1 else year1
    let leap : ℤ :=
      if year % 4 ≠ 0 then 0
      else if calendar = "proleptic_gregorian" ∧ year % 100 = 0 ∧ year % 400 ≠ 0 then 0
      else if (calendar = "standard" ∨ calendar = "gregorian") ∧ year % 100 = 0 ∧
          year % 400 ≠ 0 ∧ JD < 2299160.5 then 0
      else 1
    let dayofyr : ℤ := if leap = 1 ∧ 2 < month then dayofyr0 + leap else dayofyr0
    let eps : ℚ := max ((1/1000000000000 : ℚ) * |(Z : ℚ)|) (1/1000000000000)
    let hour : ℤ := min (max (itrunc (F * 24 + eps)) 0) 23
    let F2 : ℚ := F - (hour : ℚ) / 24
    let minute : ℤ := min (max (itrunc (F2 * 1440 + eps)) 0) 59
    let secondQ : ℚ := max ((F2 - (minute : ℚ) / 1440) * 86400) 0
    let microsecondQ : ℚ := (secondQ - (⌊secondQ⌋ : ℚ)) * 1000000
    let real : Bool := decide (calendar.toList <:+: "proleptic_gregorian".toList) ||
      (decide (calendar = "standard" ∨ calendar = "gregorian") && !(decide (JD < 2299160.5)))
    .ok ⟨year, month, itrunc day, hour, minute, itrunc secondQ, itrunc microsecondQ,
      dayofwk, dayofyr, real⟩

/-- The closed set of calendar variants (spec §3). -/
inductive CalendarVariant
  | mixedJulianGregorian
  | prolepticGregorian
  | julian
  | noLeap
  | allLeap
  | day360
deriving DecidableEq

/-- `CalendarEngine.ToDayCount`: the scalar civil-date → day-count conversion
dispatched on the calendar variant, mirroring the per-calendar branches of
`utime.date2num` (netcdftime.py lines 699-735), which wrap the conversion
functions in the calendar-specific validity checks (no leap day under
noleap, day ≤ 30 under 360_day). -/
def ToDayCount (v : CalendarVariant) (d : Datetime) : Except String ℚ :=
  match v with
  | .mixedJulianGregorian => JulianDayFromDate d "standard"
  | .prolepticGregorian => JulianDayFromDate d "proleptic_gregorian"
  | .julian => JulianDayFromDate d "julian"
  | .noLeap =>
      if d.month = 2 ∧ d.day = 29 then
        .error "there is no leap day in the noleap calendar"
      else .ok (NoLeapDayFromDate d)
  | .allLeap => .ok (AllLeapFromDate d)
  | .day360 =>
      if 30 < d.day then
        .error "there are only 30 days in every month with the 360_day calendar"
      else .ok (Day360FromDate d)

/-- Julian leap rule: year divisible by 4. -/
def julianLeap (y : ℤ) : Prop := y % 4 = 0

instance (y : ℤ) : Decidable (julianLeap y) := by unfold julianLeap; infer_instance

/-- Gregorian leap rule. -/
def gregorianLeap (y : ℤ) : Prop := y % 4 = 0 ∧ (y % 100 ≠ 0 ∨ y % 400 = 0)

instance (y : ℤ) : Decidable (gregorianLeap y) := by unfold gregorianLeap; infer_instance

/-- Leap rule of each variant, used for civil-date validity (spec §4.1): the
mixed calendar follows the Julian rule through 1582 and the Gregorian rule
afterwards; `day360` is unreachable (its months are all 30 days). -/
def CalendarVariant.leap : CalendarVariant → ℤ → Prop
  | .mixedJulianGregorian, y => if y ≤ 1582 then julianLeap y else gregorianLeap y
  | .prolepticGregorian, y => gregorianLeap y
  | .julian, y => julianLeap y
  | .noLeap, _ => False
  | .allLeap, _ => True
  | .day360, _ => True

instance (v : CalendarVariant) (y : ℤ) : Decidable (v.leap y) := by
  cases v <;> dsimp [CalendarVariant.leap] <;> infer_instance

/-- Length of a month other than February in the real-type calendars. -/
def mlen (m : ℤ) : ℤ := if m = 4 ∨ m = 6 ∨ m = 9 ∨ m = 11 then 30 else 31

/-- Days in month `m` of year `y` under each variant (civil-date validity). -/
def daysInMonth (v : CalendarVariant) (y m : ℤ) : ℤ :=
  match v with
  | .day360 => 30
  | .noLeap => if m = 2 then 28 else mlen m
  | .allLeap => if m = 2 then 29 else mlen m
  | v => if m = 2 then (if v.leap y then 29 else 28) else mlen m

/-- A civil date/time valid for a variant: field ranges as in spec §3, with
the day bounded by the variant's month length. -/
def ValidDate (v : CalendarVariant) (d : Datetime) : Prop :=
  1 ≤ d.month ∧ d.month ≤ 12 ∧ 1 ≤ d.day ∧ d.day ≤ daysInMonth v d.year d.month ∧
  0 ≤ d.hour ∧ d.hour ≤ 23 ∧ 0 ≤ d.minute ∧ d.minute ≤ 59 ∧
  0 ≤ d.second ∧ d.second ≤ 59 ∧ 0 ≤ d.microsecond ∧ d.microsecond ≤ 999999

instance (v : CalendarVariant) (d : Datetime) : Decidable (ValidDate v d) := by
  unfold ValidDate; infer_instance

/-- Strict civil (lexicographic) ordering on date/time values. -/
def civilLt (a b : Datetime) : Prop :=
  a.year < b.year ∨ (a.year = b.year ∧ (a.month < b.month ∨ (a.month = b.month ∧
    (a.day < b.day ∨ (a.day = b.day ∧ (a.hour < b.hour ∨ (a.hour = b.hour ∧
      (a.minute < b.minute ∨ (a.minute = b.minute ∧ (a.second < b.second ∨
        (a.second = b.second ∧ a.microsecond < b.microsecond)))))))))))

instance (a b : Datetime) : Decidable (civilLt a b) := by unfold civilLt; infer_instance

/-- The recognized unit tokens (`_units`, netcdftime.py lines 16-18). -/
def unitsList : List String :=
  ["days", "hours", "minutes", "seconds", "day", "hour", "minute", "second",
   "milliseconds", "millisecond", "microseconds", "microsecond"]

/-- Scalar semantics of `utime.date2num` (netcdftime.py lines 672-754) for an
already-constructed `utime` with calendar variant `v`, unit token `units`,
time-zone offset `tzoffset` (in minutes) and cached origin day count `jd0`
(the attribute `self._jd0`).  The unit branches mirror lines 739-750; a token
outside the recognized list would fall through every branch and return the
raw delta. -/
def date2num (v : CalendarVariant) (units : String) (tzoffset jd0 : ℚ)
    (d : Datetime) : Except String ℚ :=
  match ToDayCount v d with
  | .error e => .error e
  | .ok jd =>
    let jdelta := jd - jd0
    if units = "microseconds" ∨ units = "microsecond" then
      .ok (jdelta * 86400 * 1000000 - tzoffset * 60 * 1000000)
    else if units = "milliseconds" ∨ units = "millisecond" then
      .ok (jdelta * 86400 * 1000 - tzoffset * 60 * 1000)
    else if units = "second" ∨ units = "seconds" then
      .ok (jdelta * 86400 - tzoffset * 60)
    else if units = "minute" ∨ units = "minutes" then
      .ok (jdelta * 1440 - tzoffset)
    else if units = "hour" ∨ units = "hours" then
      .ok (jdelta * 24 - tzoffset / 60)
    else if units = "day" ∨ units = "days" then
      .ok (jdelta - tzoffset / 1440)
    else .ok jdelta

/-- Day-count multiplier of each recognized unit (spec §4.3). -/
def unitFactor (units : String) : ℚ :=
  if units = "microseconds" ∨ units = "microsecond" then 86400000000
  else if units = "milliseconds" ∨ units = "millisecond" then 86400000
  else if units = "second" ∨ units = "seconds" then 86400
  else if units = "minute" ∨ units = "minutes" then 1440
  else if units = "hour" ∨ units = "hours" then 24
  else 1

/-- `bisect.bisect_right(nctime, q)` on the ascending series `nctime`: the
right insertion point, i.e. the number of elements ≤ q on a sorted list
(`time2index` documents that the series entries are stored in increasing
order). -/
def bisectRight (l : List ℚ) (q : ℚ) : ℕ := l.countP (fun x => decide (x ≤ q))

/-- `bisect.bisect_left(nctime, q)`: the left insertion point, i.e. the number
of elements < q on a sorted list. -/
def bisectLeft (l : List ℚ) (q : ℚ) : ℕ := l.countP (fun x => decide (x < q))

/-- Python sequence indexing `l[i]` including the negative-index wraparound
used (for `i - 1` with `i = 0`) by the nearest-selection line 1079. -/
def pyGet (l : List ℚ) (i : ℤ) : ℚ :=
  if i < 0 then l.getD (l.length + i).toNat 0 else l.getD i.toNat 0

/-- The phase-1 guess of `time2index` (netcdftime.py lines 1022-1035), per
query element `q`: numpy's `array(x, int)` casts by truncation toward zero,
`np.ceil` is the ceiling, and `np.around` rounds half to even. -/
def timeGuess (select : String) (nctime : List ℚ) (q : ℚ) : ℤ :=
  let t0 : ℚ := nctime.getD 0 0
  let dt : ℚ := if 2 ≤ nctime.length then nctime.getD 1 0 - t0 else 1
  if select = "exact" ∨ select = "before" then itrunc ((q - t0) / dt)
  else if select = "after" then ⌈(q - t0) / dt⌉
  else nround ((q - t0) / dt)

/-- Errors of the `time2index` bisection fallback, in raise order. -/
inductive IdxErr
  | outOfRangeBefore
  | outOfRangeAfter
  | noExactMatch
  | badSelect
deriving DecidableEq

/-- The bisection fallback of `time2index` (netcdftime.py lines 1040-1090),
entered when the phase-1 guess fails verification: `nctime` is the (assumed
ascending) series, `num` the batch of query coordinates.  Each numpy
fancy-indexing assignment is embedded as a `zipWith` over the per-query
boolean masks. -/
def fallbackResolve (select : String) (nctime : List ℚ) (num : List ℚ) :
    Except IdxErr (List ℤ) :=
  let N : ℤ := nctime.length
  let before : List Bool := num.map (fun n => decide (bisectRight nctime n = 0))
  let index0 : List ℤ := num.map (fun n => (bisectLeft nctime n : ℤ))
  let after : List Bool := index0.map (fun i => decide (i = N))
  if (select = "before" ∨ select = "exact") ∧ before.any id then
    .error .outOfRangeBefore
  else if (select = "after" ∨ select = "exact") ∧ after.any id then
    .error .outOfRangeAfter
  else
    let index1 : List ℤ := List.zipWith (fun i a => if a then N - 1 else i) index0 after
    let ncnum : List ℚ := index1.map (fun i => pyGet nctime i)
    let mismatch : List Bool := List.zipWith (fun v n => decide (v ≠ n)) ncnum num
    if select = "exact" then
      if mismatch.any id then .error .noExactMatch
      else .ok (List.zipWith (fun i b => if b then 0 else i) index1 before)
    else if select = "before" then
      let index2 : List ℤ := List.zipWith (fun i a => if a then N else i) index1 after
      let index3 : List ℤ := List.zipWith (fun i m => if m then i - 1 else i) index2 mismatch
      .ok (List.zipWith (fun i b => if b then 0 else i) index3 before)
    else if select = "after" then
      .ok (List.zipWith (fun i b => if b then 0 else i) index1 before)
    else if select = "nearest" then
      let index3 : List ℤ := List.zipWith3
        (fun i m q =>
          if m then (if q < (pyGet nctime (i - 1) + pyGet nctime i) / 2 then i - 1 else i) else i)
        index1 mismatch num
      .ok (List.zipWith (fun i b => if b then 0 else i) index3 before)
    else .error .badSelect

/-- Linear month index of a civil (year, month) pair: `12·year + (month − 1)`,
used to walk the calendar one month at a time in the monotonicity proofs. -/
def monthIdx (y m : ℤ) : ℤ := 12 * y + (m - 1)

/-- Civil year of a month index. -/
def idxYear (n : ℤ) : ℤ := n / 12

/-- Civil month of a month index. -/
def idxMonth (n : ℤ) : ℤ := n % 12 + 1

/-- Computational (March-based) year of a month index: the `yShift` of its
civil pair. -/
def ycIdx (n : ℤ) : ℤ := (n - 2) / 12

/-- Computational month of a month index: the `mShift` of its civil pair,
ranging over 3..14. -/
def mcIdx (n : ℤ) : ℤ := (n - 2) % 12 + 3

/-- The truncated Meeus month-offset table `int(30.6001 · (mc + 1))` for
computational months 3..14. -/
def mtab (mc : ℤ) : ℤ :=
  if mc = 3 then 122 else if mc = 4 then 153 else if mc = 5 then 183
  else if mc = 6 then 214 else if mc = 7 then 244 else if mc = 8 then 275
  else if mc = 9 then 306 else if mc = 10 then 336 else if mc = 11 then 367
  else if mc = 12 then 397 else if mc = 13 then 428 else 459

/-- Integer form of the Julian-family provisional day number at day 0 of a
month (the year and month terms of `jdBase`), as a function of the month
index; agrees with the `itrunc` form for nonnegative computational years. -/
def gJul (n : ℤ) : ℤ := 365 * ycIdx n + ycIdx n / 4 + 2000 + mtab (mcIdx n)

/-- Integer form of the Gregorian correction term B, as a function of the
month index; agrees with `gregB` for nonnegative computational years. -/
def bGreg (n : ℤ) : ℤ := 2 - ycIdx n / 100 + (ycIdx n / 100) / 4

/-- Year and month terms of the proleptic-Gregorian day number. -/
def gGreg (n : ℤ) : ℤ := gJul n + bGreg n

/-- Year and month terms of the noleap (365-day) day number. -/
def gNoLeap (n : ℤ) : ℤ := 365 * (ycIdx n + 4716) + mtab (mcIdx n)

/-- Year and month terms of the all-leap (366-day) day number. -/
def gAllLeap (n : ℤ) : ℤ := 366 * (ycIdx n + 4716) + mtab (mcIdx n)

/-- Year and month terms of the 360-day day number (no month shift). -/
def g360 (n : ℤ) : ℤ := 360 * (idxYear n + 4716) + 30 * (idxMonth n - 1)

/-- Month length of the month with index `n` under variant `v`. -/
def dimIdx (v : CalendarVariant) (n : ℤ) : ℤ := daysInMonth v (idxYear n) (idxMonth n)

lemma itrunc_of_nonneg {q : ℚ} (h : 0 ≤ q) : itrunc q = ⌊q⌋ := if_pos h

lemma itrunc_of_neg {q : ℚ} (h : q < 0) : itrunc q = ⌈q⌉ := by
  rw [itrunc, if_neg (not_le.mpr h), Int.floor_neg, neg_neg]

lemma abs_sub_nround_le (q : ℚ) : |q - (nround q : ℚ)| ≤ 1/2 := by
  have h0 := Int.floor_le q
  have h1 := Int.lt_floor_add_one q
  unfold nround
  split_ifs with hlt hgt heven
  · rw [abs_of_nonneg (by linarith)]; linarith
  · rw [abs_of_nonpos (by push_cast; linarith)]; push_cast; linarith
  · rw [abs_of_nonneg (by linarith)]; linarith
  · rw [abs_of_nonpos (by push_cast; linarith)]; push_cast; linarith

lemma nround_tie_even (q : ℚ) (h : |q - (nround q : ℚ)| = 1/2) : 2 ∣ nround q := by
  have h0 := Int.floor_le q
  have h1 := Int.lt_floor_add_one q
  unfold nround at h ⊢
  split_ifs at h ⊢ with hlt hgt heven
  · rw [abs_of_nonneg (by linarith)] at h; linarith
  · rw [abs_of_nonpos (by push_cast; linarith)] at h; push_cast at h; linarith
  · exact heven
  · have h2 : ¬(2 ∣ ⌊q⌋) := heven
    omega

lemma itrunc_mono {a b : ℚ} (h : a ≤ b) : itrunc a ≤ itrunc b := by
  unfold itrunc
  split_ifs with ha hb hb'
  · exact Int.floor_mono h
  · exact absurd (le_trans ha h) hb
  · have h1 : (0 : ℤ) ≤ ⌊b⌋ := Int.floor_nonneg.mpr hb'
    have h2 : (0 : ℤ) ≤ ⌊-a⌋ := Int.floor_nonneg.mpr (by linarith [not_le.mp ha])
    omega
  · have := Int.floor_mono (neg_le_neg h)
    omega

lemma int_le_int_add_frac {n m : ℤ} {x : ℚ} (h0 : 0 ≤ x) (h1 : x < 1) :
    ((n : ℚ) ≤ (m : ℚ) + x) ↔ n ≤ m := by
  constructor
  · intro h
    have h2 : (n : ℚ) < (m : ℚ) + 1 := by linarith
    have h3 : n < m + 1 := by exact_mod_cast h2
    omega
  · intro h
    have h2 : (n : ℚ) ≤ (m : ℚ) := by exact_mod_cast h
    linarith

lemma int_add_frac_lt_int {n m : ℤ} {x : ℚ} (h0 : 0 ≤ x) (h1 : x < 1) :
    ((m : ℚ) + x < (n : ℚ)) ↔ m < n := by
  constructor
  · intro h
    have h2 : (m : ℚ) < n := by linarith
    exact_mod_cast h2
  · intro h
    have h2 : (m : ℚ) + 1 ≤ (n : ℚ) := by exact_mod_cast Int.add_one_le_iff.mpr h
    linarith

lemma timeFrac_nonneg {d : Datetime} (hh : 0 ≤ d.hour) (hmi : 0 ≤ d.minute)
    (hs : 0 ≤ d.second) (hus : 0 ≤ d.microsecond) : 0 ≤ timeFrac d := by
  unfold timeFrac
  have h1 : (0 : ℚ) ≤ (d.hour : ℚ) := by exact_mod_cast hh
  have h2 : (0 : ℚ) ≤ (d.minute : ℚ) := by exact_mod_cast hmi
  have h3 : (0 : ℚ) ≤ (d.second : ℚ) := by exact_mod_cast hs
  have h4 : (0 : ℚ) ≤ (d.microsecond : ℚ) := by exact_mod_cast hus
  have h5 : (0 : ℚ) ≤ (d.second : ℚ) + (d.microsecond : ℚ) / 1000000 := by linarith
  have h6 : (0 : ℚ) ≤ ((d.second : ℚ) + (d.microsecond : ℚ) / 1000000) / 86400 := by linarith
  linarith

lemma timeFrac_lt_one {d : Datetime} (hh : d.hour ≤ 23) (hmi : d.minute ≤ 59)
    (hs : d.second ≤ 59) (hus : d.microsecond ≤ 999999) : timeFrac d < 1 := by
  unfold timeFrac
  have h1 : (d.hour : ℚ) ≤ 23 := by exact_mod_cast hh
  have h2 : (d.minute : ℚ) ≤ 59 := by exact_mod_cast hmi
  have h3 : (d.second : ℚ) ≤ 59 := by exact_mod_cast hs
  have h4 : (d.microsecond : ℚ) ≤ 999999 := by exact_mod_cast hus
  have h5 : ((d.second : ℚ) + (d.microsecond : ℚ) / 1000000) / 86400 ≤
      (59 + 999999 / 1000000 : ℚ) / 86400 := by linarith
  linarith

lemma JulianDayFromDate_standard (d : Datetime) :
    JulianDayFromDate d "standard" =
      (if 2299170.5 ≤ jdBase d then .ok (jdBase d + (gregB d : ℚ))
       else if jdBase d < 2299160.5 then .ok (jdBase d)
       else .error "impossible date (falls in gap between end of Julian calendar and beginning of Gregorian calendar") := by
  simp only [JulianDayFromDate, jdBase, gregB, mShift, yShift]
  rw [if_pos (Or.inl trivial)]

lemma JulianDayFromDate_gregorian_name (d : Datetime) :
    JulianDayFromDate d "gregorian" = JulianDayFromDate d "standard" := by
  simp only [JulianDayFromDate]
  rw [if_pos (Or.inr trivial), if_pos (Or.inl trivial)]

lemma JulianDayFromDate_proleptic (d : Datetime) :
    JulianDayFromDate d "proleptic_gregorian" = .ok (jdBase d + (gregB d : ℚ)) := by
  simp only [JulianDayFromDate, jdBase, gregB, mShift, yShift]
  rw [if_neg (by simp), if_pos trivial]

lemma JulianDayFromDate_julian (d : Datetime) :
    JulianDayFromDate d "julian" = .ok (jdBase d) := by
  simp only [JulianDayFromDate, jdBase, mShift, yShift]
  rw [if_neg (by simp), if_neg (by simp), if_pos trivial]

/-- C2: Anchor value: `ToDayCount` (`JulianDayFromDate`) applied to the civil
date 2000-01-01 12:00:00 under the proleptic-Gregorian variant returns exactly
the Julian Day 2451545.0. -/
theorem C2_anchor_value :
    ToDayCount .prolepticGregorian ⟨2000, 1, 1, 12, 0, 0, 0⟩ = .ok 2451545 := by
  norm_num [ToDayCount, JulianDayFromDate, timeFrac, itrunc]

/-- C4 (code bug): under the calendar name "gregorian", `DateFromJulianDay`
returns a real (Proper) datetime even for an instant before the 1582-10-15
Gregorian cutover — here JD 2299159.5, which is 1582-10-04 00:00:00 of the
Julian branch — because the Python expression `calendar in
'proleptic_gregorian'` (line 337) is a substring test and "gregorian" is a
substring of "proleptic_gregorian".  The claim (and the function's own
docstring, lines 220-224) require a phony (Synthetic) value in this case. -/
theorem C4_gregorian_always_real :
    DateFromJulianDay 2299159.5 "gregorian" =
      .ok ⟨1582, 10, 4, 0, 0, 0, 0, 4, 277, true⟩ := by
  norm_num [DateFromJulianDay, itrunc, nround]
  decide

/-- C1 (code bug): the round trip is not within 0.1 s.  Converting
2000-01-01 23:59:59 (proleptic-Gregorian) to a day count and back yields
2000-01-01 00:00:00, an error of 86399 seconds: the `+0.00005`-day (4.32 s)
rounding nudge of line 245 — whose own comment says it is meant to be
`0.000005` = 432 ms — pushes the whole-day index to the next day, after which
the truncation of the fractional `day` value falls back to day 1 with a
zero-clipped time of day.  This contradicts the documented ≈ 0.1 s resolution
(lines 211, 591, 681). -/
theorem C1_roundtrip_bug :
    JulianDayFromDate ⟨2000, 1, 1, 23, 59, 59, 0⟩ "proleptic_gregorian" =
        .ok (2451544.5 + 86399/86400) ∧
      DateFromJulianDay (2451544.5 + 86399/86400) "proleptic_gregorian" =
        .ok ⟨2000, 1, 1, 0, 0, 0, 0, 6, 2, true⟩ := by
  constructor
  · norm_num [JulianDayFromDate, timeFrac, itrunc]
  · norm_num [DateFromJulianDay, itrunc, nround]

/-- C5 (counterexample): with series `[0, 1]` (t0 = 0, dt = 1) and query −1/2,
the phase-1 candidate index computed by `time2index` for select `exact` is 0 —
numpy's `array(x, int)` cast truncates toward zero — whereas the claim states
it equals `⌊(q − t0)/dt⌋ = −1`. -/
theorem C5_counterexample :
    timeGuess "exact" [0, 1] (-1/2) = 0 ∧ ⌊((-1/2 : ℚ) - 0) / 1⌋ = -1 := by
  constructor
  · norm_num [timeGuess, itrunc]
  · norm_num

/-- C5 (amended): with `t0` the first series value and `dt` the difference of
the first two values (1 for a one-element series), the phase-1 candidate index
of `time2index` equals the truncation toward zero of `x = (q − t0)/dt` for
select `exact`/`before` — the floor only when the quotient is nonnegative, the
ceiling when it is negative — the ceiling of `x` for `after`, and the
half-to-even rounding of `x` for `nearest` (characterized by: off by at most
1/2 from `x`, and even in case of a tie). -/
theorem C5_amended (select : String) (nctime : List ℚ) (q t0 dt x : ℚ)
    (ht0 : t0 = nctime.getD 0 0)
    (hdt : dt = if 2 ≤ nctime.length then nctime.getD 1 0 - t0 else 1)
    (hx : x = (q - t0) / dt) :
    ((select = "exact" ∨ select = "before") →
      timeGuess select nctime q = itrunc x ∧
        (0 ≤ x → timeGuess select nctime q = ⌊x⌋) ∧
        (x < 0 → timeGuess select nctime q = ⌈x⌉)) ∧
    (select = "after" → timeGuess select nctime q = ⌈x⌉) ∧
    (select = "nearest" →
      |x - (timeGuess select nctime q : ℚ)| ≤ 1/2 ∧
        (|x - (timeGuess select nctime q : ℚ)| = 1/2 → 2 ∣ timeGuess select nctime q)) := by
  simp only [timeGuess]
  rw [← ht0, ← hdt, ← hx]
  refine ⟨fun hsel => ?_, fun hsel => ?_, fun hsel => ?_⟩
  · rw [if_pos hsel]
    refine ⟨rfl, fun h0 => ?_, fun h0 => ?_⟩
    · exact itrunc_of_nonneg h0
    · exact itrunc_of_neg h0
  · rw [if_neg (by simp [hsel]), if_pos hsel]
  · rw [if_neg (by simp [hsel]), if_neg (by simp [hsel])]
    exact ⟨abs_sub_nround_le x, nround_tie_even x⟩

/-- C5 (witness): instantiating the amended claim at select `exact`, series
`[0, 6, 12, 18, 24]` and query 13 gives candidate index ⌊13/6⌋ = 2. -/
theorem C5_witness : timeGuess "exact" [0, 6, 12, 18, 24] 13 = 2 := by
  have h := ((C5_amended "exact" [0, 6, 12, 18, 24] 13 0 6 (13/6) (by norm_num)
    (by norm_num) (by norm_num)).1 (Or.inl rfl)).2.1 (by norm_num)
  rw [h]
  norm_num

lemma any_map_id {α : Type} (l : List α) (f : α → Bool) : (l.map f).any id = l.any f := by
  induction l with
  | nil => rfl
  | cons a t ih => simp [ih]

lemma bisectLeft_le_bisectRight (l : List ℚ) (q : ℚ) : bisectLeft l q ≤ bisectRight l q := by
  unfold bisectLeft bisectRight
  refine List.countP_mono_left fun x _ h => ?_
  simp only [decide_eq_true_eq] at h ⊢
  exact le_of_lt h

/-- C8 (counterexample): with series `[0, 6]`, queries `[-10, 100]` and select
`exact`, both out-of-range conditions hold — the query −10 has right-insertion
point 0 and the query 100 has left-insertion point 2 = series length — but the
call fails with the Before error (raised first), not the After error the
claim's second conditional demands. -/
theorem C8_counterexample :
    fallbackResolve "exact" [0, 6] [-10, 100] = .error .outOfRangeBefore ∧
      bisectLeft [0, 6] 100 = 2 ∧
      (Except.error IdxErr.outOfRangeBefore : Except IdxErr (List ℤ)) ≠
        .error .outOfRangeAfter := by
  refine ⟨?_, ?_, by decide⟩
  · norm_num [fallbackResolve, bisectRight, bisectLeft, List.countP, List.countP.go]
  · norm_num [bisectLeft, List.countP, List.countP.go]

/-- C8 (amended): in the bisection fallback of `time2index`, if select is
`exact` or `before` and some query's right-insertion point is 0, the call
fails with the out-of-range-before error; if select is `exact` or `after` and
some query's left-insertion point equals the series length, the call fails
with the out-of-range-after error — the latter provided the Before rejection
(which is checked first) does not already apply. -/
theorem C8_amended (select : String) (nctime num : List ℚ) :
    ((select = "before" ∨ select = "exact") ∧ (∃ q ∈ num, bisectRight nctime q = 0) →
      fallbackResolve select nctime num = .error .outOfRangeBefore) ∧
    ((select = "after" ∨ select = "exact") ∧
        (∃ q ∈ num, bisectLeft nctime q = nctime.length) ∧
        ¬((select = "before" ∨ select = "exact") ∧ ∃ q ∈ num, bisectRight nctime q = 0) →
      fallbackResolve select nctime num = .error .outOfRangeAfter) := by
  have hbef : ((num.map (fun n => decide (bisectRight nctime n = 0))).any id = true) ↔
      (∃ q ∈ num, bisectRight nctime q = 0) := by
    rw [any_map_id, List.any_eq_true]
    simp
  have haft : (((num.map (fun n => ((bisectLeft nctime n : ℕ) : ℤ))).map
      (fun i => decide (i = (nctime.length : ℤ)))).any id = true) ↔
      (∃ q ∈ num, bisectLeft nctime q = nctime.length) := by
    rw [List.map_map, any_map_id, List.any_eq_true]
    simp
  constructor
  · rintro ⟨hsel, hex⟩
    rw [fallbackResolve, if_pos ⟨hsel, hbef.mpr hex⟩]
  · rintro ⟨hsel, hex, hnot⟩
    rw [fallbackResolve, if_neg (fun hc => hnot ⟨hc.1, hbef.mp hc.2⟩),
      if_pos ⟨hsel, haft.mpr hex⟩]

/-- C8 (witness): select `before` with query −10 below the start of the series
`[0, 6]` is rejected with the out-of-range-before error. -/
theorem C8_witness :
    fallbackResolve "before" [0, 6] [-10] = .error .outOfRangeBefore := by
  refine (C8_amended "before" [0, 6] [-10]).1 ⟨Or.inl rfl, -10, by norm_num, ?_⟩
  norm_num [bisectRight, List.countP, List.countP.go]

/-- C9: Nearest tie-break in the bisection fallback: for a query `q` whose
candidate index `i1` (the left-insertion point, pulled back to `N − 1` when it
equals the series length) has a left neighbor and series value different from
`q`, the result is `i1 − 1` exactly when `q` is strictly below the midpoint of
the candidate and its left neighbor, and `i1` otherwise; in particular a query
exactly at the midpoint resolves to the right (larger) index. -/
theorem C9_nearest_tiebreak (nctime : List ℚ) (q : ℚ) (i1 : ℤ) (hN : 1 ≤ nctime.length)
    (hi1 : i1 = if (bisectLeft nctime q : ℤ) = (nctime.length : ℤ)
      then (nctime.length : ℤ) - 1 else (bisectLeft nctime q : ℤ))
    (h1 : 1 ≤ i1) (hne : nctime.getD i1.toNat 0 ≠ q) :
    fallbackResolve "nearest" nctime [q] =
      .ok [if q < (nctime.getD (i1 - 1).toNat 0 + nctime.getD i1.toNat 0) / 2
           then i1 - 1 else i1] := by
  have hle : bisectLeft nctime q ≤ nctime.length :=
    List.countP_le_length (fun x => decide (x < q))
  have hbr : ¬(bisectRight nctime q = 0) := by
    intro h0
    have hl : bisectLeft nctime q = 0 :=
      Nat.le_zero.mp (h0 ▸ bisectLeft_le_bisectRight nctime q)
    rw [hl] at hi1
    rw [if_neg (by exact_mod_cast by omega)] at hi1
    omega
  have hi1nonneg : 0 ≤ i1 := by omega
  have hi1lt : i1 < (nctime.length : ℤ) := by
    by_cases hc : (bisectLeft nctime q : ℤ) = (nctime.length : ℤ)
    · rw [if_pos hc] at hi1; omega
    · rw [if_neg hc] at hi1
      have : (bisectLeft nctime q : ℤ) ≤ (nctime.length : ℤ) := by exact_mod_cast hle
      omega
  have hpy : pyGet nctime i1 = nctime.getD i1.toNat 0 := by
    rw [pyGet, if_neg (by omega)]
  have hpy' : pyGet nctime (i1 - 1) = nctime.getD (i1 - 1).toNat 0 := by
    rw [pyGet, if_neg (by omega)]
  rw [fallbackResolve]
  rw [if_neg (by rintro ⟨hsel, -⟩; rcases hsel with h | h <;> simp at h)]
  rw [if_neg (by rintro ⟨hsel, -⟩; rcases hsel with h | h <;> simp at h)]
  rw [if_neg (by simp), if_neg (by simp), if_neg (by simp), if_pos rfl]
  simp only [List.map_cons, List.map_nil, List.zipWith_cons_cons, List.zipWith_nil_right,
    List.zipWith3, decide_eq_true_eq]
  simp only [← hi1, hpy, hpy']
  rw [if_neg hbr, if_pos hne]

/-- C9 (witness): series `[0, 6, 12, 18, 24]`, query 16, select nearest:
candidate index 3 (value 18 ≠ 16), and 16 is not below the midpoint 15 of
(12, 18), so the result is index 3 — the spec's own example. -/
theorem C9_witness :
    fallbackResolve "nearest" [0, 6, 12, 18, 24] [16] = .ok [3] := by
  have h := C9_nearest_tiebreak [0, 6, 12, 18, 24] 16 3 (by norm_num)
    (by norm_num [bisectLeft, List.countP, List.countP.go]) (by norm_num)
    (by decide)
  have e1 : ([0, 6, 12, 18, 24] : List ℚ).getD ((3 : ℤ) - 1).toNat 0 = 12 := rfl
  have e2 : ([0, 6, 12, 18, 24] : List ℚ).getD (3 : ℤ).toNat 0 = 18 := rfl
  rw [h, e1, e2]
  norm_num

/-- C10: Implicit out-of-range clamping in the bisection fallback of
`time2index`: a `before` query strictly greater than every series value does
not fail but resolves to the last index N − 1, and an `after` query strictly
smaller than every series value does not fail but resolves to index 0. -/
theorem C10_clamping (nctime : List ℚ) (q : ℚ) (hN : 1 ≤ nctime.length) :
    ((∀ x ∈ nctime, x < q) →
      fallbackResolve "before" nctime [q] = .ok [(nctime.length : ℤ) - 1]) ∧
    ((∀ x ∈ nctime, q < x) →
      fallbackResolve "after" nctime [q] = .ok [0]) := by
  constructor
  · intro h
    have hr : bisectRight nctime q = nctime.length :=
      List.countP_eq_length.mpr fun x hx => decide_eq_true (le_of_lt (h x hx))
    have hl : bisectLeft nctime q = nctime.length :=
      List.countP_eq_length.mpr fun x hx => decide_eq_true (h x hx)
    have hr0 : ¬(bisectRight nctime q = 0) := by omega
    have htn : ((nctime.length : ℤ) - 1).toNat < nctime.length := by omega
    have hmem : nctime.getD ((nctime.length : ℤ) - 1).toNat 0 ∈ nctime := by
      rw [List.getD_eq_getElem _ _ htn]; exact List.getElem_mem htn
    have hne : nctime.getD ((nctime.length : ℤ) - 1).toNat 0 ≠ q := ne_of_lt (h _ hmem)
    have hpy : pyGet nctime ((nctime.length : ℤ) - 1) =
        nctime.getD ((nctime.length : ℤ) - 1).toNat 0 := by
      rw [pyGet, if_neg (by omega)]
    have hc1 : ¬(("before" = "before" ∨ "before" = "exact") ∧
        ((([q].map (fun n => decide (bisectRight nctime n = 0)))).any id = true)) := by
      rintro ⟨-, hany⟩
      simp only [List.map_cons, List.map_nil, List.any_cons, List.any_nil, Bool.or_false,
        id_eq, decide_eq_true_eq] at hany
      exact hr0 hany
    have hc2 : ¬(("before" = "after" ∨ "before" = "exact") ∧
        ((([q].map (fun n => ((bisectLeft nctime n : ℕ) : ℤ))).map
          (fun i => decide (i = (nctime.length : ℤ)))).any id = true)) := by
      rintro ⟨hsel, -⟩
      rcases hsel with hs | hs <;> simp at hs
    rw [fallbackResolve, if_neg hc1, if_neg hc2, if_neg (by simp), if_pos rfl]
    simp only [List.map_cons, List.map_nil, List.zipWith_cons_cons, List.zipWith_nil_right,
      decide_eq_true_eq, hl, hpy, if_true]
    rw [if_pos hne, if_neg hr0]
  · intro h
    have hr : bisectRight nctime q = 0 :=
      List.countP_eq_zero.mpr fun x hx => by
        simp only [decide_eq_true_eq, not_le]; exact h x hx
    have hl : bisectLeft nctime q = 0 :=
      Nat.le_zero.mp (hr ▸ bisectLeft_le_bisectRight nctime q)
    have hmem : nctime.getD 0 0 ∈ nctime := by
      rw [List.getD_eq_getElem _ _ (by omega)]; exact List.getElem_mem (by omega)
    have hne : nctime.getD 0 0 ≠ q := (ne_of_lt (h _ hmem)).symm
    have hpy : pyGet nctime (0 : ℤ) = nctime.getD 0 0 := by
      rw [pyGet, if_neg (by omega)]; rfl
    have hc1 : ¬(("after" = "before" ∨ "after" = "exact") ∧
        ((([q].map (fun n => decide (bisectRight nctime n = 0)))).any id = true)) := by
      rintro ⟨hsel, -⟩
      rcases hsel with hs | hs <;> simp at hs
    have hc2 : ¬(("after" = "after" ∨ "after" = "exact") ∧
        ((([q].map (fun n => ((bisectLeft nctime n : ℕ) : ℤ))).map
          (fun i => decide (i = (nctime.length : ℤ)))).any id = true)) := by
      rintro ⟨-, hany⟩
      simp only [List.map_cons, List.map_nil, List.any_cons, List.any_nil, Bool.or_false,
        id_eq, decide_eq_true_eq, hl] at hany
      omega
    rw [fallbackResolve, if_neg hc1, if_neg hc2, if_neg (by simp), if_neg (by simp),
      if_pos rfl]
    simp only [List.map_cons, List.map_nil, List.zipWith_cons_cons, List.zipWith_nil_right,
      decide_eq_true_eq, hl, hr]
    norm_num

/-- C10 (witness): on the series `[0, 6, 12]`, a `before` query 100 above every
value resolves to the last index 2, and an `after` query −5 below every value
resolves to index 0. -/
theorem C10_witness :
    fallbackResolve "before" [0, 6, 12] [100] = .ok [2] ∧
      fallbackResolve "after" [0, 6, 12] [-5] = .ok [0] := by
  constructor
  · have h := (C10_clamping [0, 6, 12] 100 (by norm_num)).1 (by decide)
    simpa using h
  · exact (C10_clamping [0, 6, 12] (-5) (by norm_num)).2 (by decide)

/-- C7: Unit scaling of `date2num`: for every recognized unit token, the result
is the day-count delta (`ToDayCount` of the date minus the origin day count)
times the unit factor (days ×1, hours ×24, minutes ×1440, seconds ×86400,
milliseconds ×86400000, microseconds ×86400000000), minus the configured UTC
offset in minutes scaled to that same unit. -/
theorem C7_unit_scaling (v : CalendarVariant) (units : String) (hu : units ∈ unitsList)
    (tzoffset jd0 : ℚ) (d : Datetime) (j : ℚ) (hj : ToDayCount v d = .ok j) :
    date2num v units tzoffset jd0 d =
      .ok ((j - jd0) * unitFactor units - tzoffset * unitFactor units / 1440) := by
  rw [date2num, hj]
  fin_cases hu <;> simp [unitFactor] <;> ring_nf

/-- C7 (witness): julian calendar, unit token "days", zero UTC offset and zero
origin day count: `date2num` of 2000-01-01 12:00:00 equals its raw julian day
count 2451558. -/
theorem C7_witness :
    date2num .julian "days" 0 0 ⟨2000, 1, 1, 12, 0, 0, 0⟩ = .ok 2451558 := by
  have h := C7_unit_scaling .julian "days" (by decide) 0 0 ⟨2000, 1, 1, 12, 0, 0, 0⟩
    2451558 (by norm_num [ToDayCount, JulianDayFromDate, timeFrac, itrunc]; simp)
  rw [h]
  norm_num [unitFactor]
  simp

lemma itrunc_le_of_le {a c : ℚ} {n : ℤ} (h : a ≤ c) (hc : itrunc c = n) : itrunc a ≤ n :=
  hc ▸ itrunc_mono h

lemma le_itrunc_of_le {a c : ℚ} {n : ℤ} (h : c ≤ a) (hc : itrunc c = n) : n ≤ itrunc a :=
  hc ▸ itrunc_mono h

lemma jdBase_split (d : Datetime) :
    jdBase d = ((365 * yShift d + itrunc ((1/4 : ℚ) * (yShift d : ℚ) + 2000) +
      itrunc ((30.6001 : ℚ) * ((mShift d : ℚ) + 1)) + d.day : ℤ) : ℚ) +
      timeFrac d + 1718994.5 := by
  rw [jdBase]; push_cast; ring

lemma gap_window (d : Datetime)
    (hm1 : 1 ≤ d.month) (hm2 : d.month ≤ 12) (hd1 : 1 ≤ d.day) (hd2 : d.day ≤ 31)
    (hh1 : 0 ≤ d.hour) (hh2 : d.hour ≤ 23) (hmi1 : 0 ≤ d.minute) (hmi2 : d.minute ≤ 59)
    (hs1 : 0 ≤ d.second) (hs2 : d.second ≤ 59) (hus1 : 0 ≤ d.microsecond)
    (hus2 : d.microsecond ≤ 999999) :
    (2299160.5 ≤ jdBase d ∧ jdBase d < 2299170.5) ↔
      (d.year = 1582 ∧ d.month = 10 ∧ 5 ≤ d.day ∧ d.day ≤ 14) := by
  have hf0 := timeFrac_nonneg hh1 hmi1 hs1 hus1
  have hf1 := timeFrac_lt_one hh2 hmi2 hs2 hus2
  set t1 : ℤ := itrunc ((1/4 : ℚ) * (yShift d : ℚ) + 2000) with ht1def
  set t2 : ℤ := itrunc ((30.6001 : ℚ) * ((mShift d : ℚ) + 1)) with ht2def
  have hsplit : jdBase d = ((365 * yShift d + t1 + t2 + d.day : ℤ) : ℚ) +
      timeFrac d + 1718994.5 := jdBase_split d
  have hiff1 : (2299160.5 ≤ jdBase d) ↔ 580166 ≤ 365 * yShift d + t1 + t2 + d.day := by
    rw [hsplit]
    constructor
    · intro h
      refine (int_le_int_add_frac hf0 hf1 (n := 580166)).mp ?_
      push_cast at h ⊢
      linarith
    · intro h
      have h2 : ((580166 : ℤ) : ℚ) ≤ ((365 * yShift d + t1 + t2 + d.day : ℤ) : ℚ) := by
        exact_mod_cast h
      push_cast at h2 ⊢
      linarith
  have hiff2 : (jdBase d < 2299170.5) ↔ 365 * yShift d + t1 + t2 + d.day ≤ 580175 := by
    rw [hsplit]
    constructor
    · intro h
      have h2 : ((365 * yShift d + t1 + t2 + d.day : ℤ) : ℚ) + timeFrac d <
          ((580176 : ℤ) : ℚ) := by
        push_cast at h ⊢
        linarith
      have h3 := (int_add_frac_lt_int hf0 hf1).mp h2
      omega
    · intro h
      have h2 : ((365 * yShift d + t1 + t2 + d.day : ℤ) : ℚ) ≤ ((580175 : ℤ) : ℚ) := by
        exact_mod_cast h
      push_cast at h2 ⊢
      linarith
  rw [hiff1, hiff2]
  obtain ⟨y, m, dd, hhr, mi, ss, us⟩ := d
  dsimp only at hm1 hm2 hd1 hd2 hh1 hh2 hmi1 hmi2 hs1 hs2 hus1 hus2 ht1def ht2def ⊢
  rcases lt_or_le m 3 with hm3 | hm3
  · have hys : yShift ⟨y, m, dd, hhr, mi, ss, us⟩ = y - 1 := if_pos hm3
    have hms : mShift ⟨y, m, dd, hhr, mi, ss, us⟩ = m + 12 := if_pos hm3
    have ht2ub : t2 ≤ 459 := by
      rw [ht2def, hms]
      refine itrunc_le_of_le ?_ (show itrunc ((30.6001 : ℚ) * 15) = 459 by norm_num [itrunc])
      have hm' : (m : ℚ) ≤ 2 := by exact_mod_cast (by omega : m ≤ 2)
      have hx : ((m + 12 : ℤ) : ℚ) + 1 ≤ 15 := by push_cast; linarith
      nlinarith
    rw [hys]
    by_cases hy : y ≤ 1582
    · have ht1ub : t1 ≤ 2395 := by
        rw [ht1def, hys]
        refine itrunc_le_of_le ?_ (show itrunc (2395.25 : ℚ) = 2395 by norm_num [itrunc])
        have hy' : (y : ℚ) ≤ 1582 := by exact_mod_cast hy
        have hx : ((y - 1 : ℤ) : ℚ) ≤ 1581 := by push_cast; linarith
        linarith
      constructor
      · rintro ⟨hA, hB⟩; omega
      · rintro ⟨hY, hM, -⟩; omega
    · have ht1lb : 2395 ≤ t1 := by
        rw [ht1def, hys]
        refine le_itrunc_of_le ?_ (show itrunc (2395.5 : ℚ) = 2395 by norm_num [itrunc])
        have hy' : (1583 : ℚ) ≤ (y : ℚ) := by exact_mod_cast (by omega : (1583 : ℤ) ≤ y)
        have hx : (1582 : ℚ) ≤ ((y - 1 : ℤ) : ℚ) := by push_cast; linarith
        linarith
      have ht2lb : 428 ≤ t2 := by
        rw [ht2def, hms]
        refine le_itrunc_of_le ?_ (show itrunc ((30.6001 : ℚ) * 14) = 428 by norm_num [itrunc])
        have hm' : (1 : ℚ) ≤ (m : ℚ) := by exact_mod_cast hm1
        have hx : (14 : ℚ) ≤ ((m + 12 : ℤ) : ℚ) + 1 := by push_cast; linarith
        nlinarith
      constructor
      · rintro ⟨hA, hB⟩; omega
      · rintro ⟨hY, hM, -⟩; omega
  · have hys : yShift ⟨y, m, dd, hhr, mi, ss, us⟩ = y := if_neg (not_lt.mpr hm3)
    have hms : mShift ⟨y, m, dd, hhr, mi, ss, us⟩ = m := if_neg (not_lt.mpr hm3)
    have ht2ub : t2 ≤ 397 := by
      rw [ht2def, hms]
      refine itrunc_le_of_le ?_ (show itrunc ((30.6001 : ℚ) * 13) = 397 by norm_num [itrunc])
      have hm' : (m : ℚ) ≤ 12 := by exact_mod_cast hm2
      have hx : ((m : ℤ) : ℚ) + 1 ≤ 13 := by push_cast; linarith
      nlinarith
    have ht2lb : 122 ≤ t2 := by
      rw [ht2def, hms]
      refine le_itrunc_of_le ?_ (show itrunc ((30.6001 : ℚ) * 4) = 122 by norm_num [itrunc])
      have hm' : (3 : ℚ) ≤ (m : ℚ) := by exact_mod_cast hm3
      have hx : (4 : ℚ) ≤ ((m : ℤ) : ℚ) + 1 := by push_cast; linarith
      nlinarith
    rw [hys]
    by_cases hy1 : y ≤ 1581
    · have ht1ub : t1 ≤ 2395 := by
        rw [ht1def, hys]
        refine itrunc_le_of_le ?_ (show itrunc (2395.25 : ℚ) = 2395 by norm_num [itrunc])
        have hx : ((y : ℤ) : ℚ) ≤ 1581 := by exact_mod_cast hy1
        linarith
      constructor
      · rintro ⟨hA, hB⟩; omega
      · rintro ⟨hY, hM, -⟩; omega
    · by_cases hy2 : 1583 ≤ y
      · have ht1lb : 2395 ≤ t1 := by
          rw [ht1def, hys]
          refine le_itrunc_of_le ?_ (show itrunc (2395.75 : ℚ) = 2395 by norm_num [itrunc])
          have hx : (1583 : ℚ) ≤ ((y : ℤ) : ℚ) := by exact_mod_cast hy2
          linarith
        constructor
        · rintro ⟨hA, hB⟩; omega
        · rintro ⟨hY, hM, -⟩; omega
      · have hy : y = 1582 := by omega
        subst hy
        have ht1v : t1 = 2395 := by
          rw [ht1def, hys]; norm_num [itrunc]
        rw [ht1v]
        interval_cases m <;>
          (rw [ht2def, hms] <;> norm_num [itrunc] <;> omega)

/-- C3 (counterexample): the left endpoint 1582-10-05 00:00:00 itself is
rejected by `JulianDayFromDate` under the mixed calendar — its provisional day
number is exactly the code's lower cutover constant 2299160.5, which falls in
the rejected region — whereas the claim states both endpoints succeed. -/
theorem C3_counterexample :
    JulianDayFromDate ⟨1582, 10, 5, 0, 0, 0, 0⟩ "standard" =
      .error "impossible date (falls in gap between end of Julian calendar and beginning of Gregorian calendar" := by
  rw [JulianDayFromDate_standard]
  rw [if_neg (by norm_num [jdBase, mShift, yShift, timeFrac, itrunc]),
    if_neg (by norm_num [jdBase, mShift, yShift, timeFrac, itrunc])]

/-- C3 (amended): under the mixed calendar, `JulianDayFromDate` on a single
civil date with in-range fields fails with the gap error exactly when the date
is on or after 1582-10-05 00:00:00 and strictly before 1582-10-15 00:00:00,
i.e. when year = 1582, month = 10 and 5 ≤ day ≤ 14: the left endpoint
1582-10-05 is itself rejected, 1582-10-15 and later succeed, 1582-10-04 and
earlier succeed. -/
theorem C3_gap_rejection (d : Datetime)
    (hm1 : 1 ≤ d.month) (hm2 : d.month ≤ 12) (hd1 : 1 ≤ d.day) (hd2 : d.day ≤ 31)
    (hh1 : 0 ≤ d.hour) (hh2 : d.hour ≤ 23) (hmi1 : 0 ≤ d.minute) (hmi2 : d.minute ≤ 59)
    (hs1 : 0 ≤ d.second) (hs2 : d.second ≤ 59) (hus1 : 0 ≤ d.microsecond)
    (hus2 : d.microsecond ≤ 999999) :
    (JulianDayFromDate d "standard" =
        .error "impossible date (falls in gap between end of Julian calendar and beginning of Gregorian calendar") ↔
      (d.year = 1582 ∧ d.month = 10 ∧ 5 ≤ d.day ∧ d.day ≤ 14) := by
  rw [JulianDayFromDate_standard,
    ← gap_window d hm1 hm2 hd1 hd2 hh1 hh2 hmi1 hmi2 hs1 hs2 hus1 hus2]
  constructor
  · intro h
    split_ifs at h with h1 h2
    all_goals first
      | exact ⟨le_of_not_lt h2, lt_of_not_le h1⟩
      | simp_all
  · rintro ⟨hge, hlt⟩
    rw [if_neg (not_le.mpr hlt), if_neg (not_lt.mpr hge)]

/-- C3 (witness): 1582-10-07, strictly inside the gap, is rejected. -/
theorem C3_witness :
    JulianDayFromDate ⟨1582, 10, 7, 0, 0, 0, 0⟩ "standard" =
      .error "impossible date (falls in gap between end of Julian calendar and beginning of Gregorian calendar" := by
  exact (C3_gap_rejection ⟨1582, 10, 7, 0, 0, 0, 0⟩ (by decide) (by decide) (by decide)
    (by decide) (by decide) (by decide) (by decide) (by decide) (by decide) (by decide)
    (by decide) (by decide)).mpr ⟨rfl, rfl, by decide, by decide⟩

lemma itrunc_intCast (k : ℤ) : itrunc ((k : ℤ) : ℚ) = k := by
  unfold itrunc
  split_ifs with h
  · exact Int.floor_intCast k
  · rw [← Int.cast_neg, Int.floor_intCast]; omega

lemma floor_intCast_div4 (y : ℤ) : ⌊(y : ℚ) / 4⌋ = y / 4 := by
  have h := Rat.floor_intCast_div_natCast y 4
  exact_mod_cast h

lemma itrunc_quarter (y : ℤ) (hy : 0 ≤ y) :
    itrunc ((1/4 : ℚ) * (y : ℚ) + 2000) = y / 4 + 2000 := by
  have hy' : (0 : ℚ) ≤ (y : ℚ) := by exact_mod_cast hy
  rw [itrunc_of_nonneg (by linarith)]
  rw [show (1/4 : ℚ) * (y : ℚ) + 2000 = (y : ℚ) / 4 + ((2000 : ℤ) : ℚ) by push_cast; ring]
  rw [Int.floor_add_int, floor_intCast_div4]

lemma itrunc_div100 (y : ℤ) (hy : 0 ≤ y) : itrunc ((y : ℚ) / 100) = y / 100 := by
  have hy' : (0 : ℚ) ≤ (y : ℚ) := by exact_mod_cast hy
  rw [itrunc_of_nonneg (by linarith)]
  exact_mod_cast Rat.floor_intCast_div_natCast y 100

lemma itrunc_quarter0 (a : ℤ) (ha : 0 ≤ a) : itrunc ((1/4 : ℚ) * (a : ℚ)) = a / 4 := by
  have ha' : (0 : ℚ) ≤ (a : ℚ) := by exact_mod_cast ha
  rw [itrunc_of_nonneg (by linarith), show (1/4 : ℚ) * (a : ℚ) = (a : ℚ) / 4 by ring]
  exact floor_intCast_div4 a

lemma mtab_eq (mc : ℤ) (h1 : 3 ≤ mc) (h2 : mc ≤ 14) :
    itrunc ((30.6001 : ℚ) * ((mc : ℚ) + 1)) = mtab mc := by
  interval_cases mc <;> norm_num [mtab, itrunc]

lemma ycIdx_monthIdx (y m : ℤ) (h1 : 1 ≤ m) (h2 : m ≤ 12) :
    ycIdx (monthIdx y m) = if m < 3 then y - 1 else y := by
  unfold ycIdx monthIdx
  split_ifs with h <;> omega

lemma mcIdx_monthIdx (y m : ℤ) (h1 : 1 ≤ m) (h2 : m ≤ 12) :
    mcIdx (monthIdx y m) = if m < 3 then m + 12 else m := by
  unfold mcIdx monthIdx
  split_ifs with h <;> omega

lemma idxYear_monthIdx (y m : ℤ) (h1 : 1 ≤ m) (h2 : m ≤ 12) :
    idxYear (monthIdx y m) = y := by
  unfold idxYear monthIdx; omega

lemma idxMonth_monthIdx (y m : ℤ) (h1 : 1 ≤ m) (h2 : m ≤ 12) :
    idxMonth (monthIdx y m) = m := by
  unfold idxMonth monthIdx; omega

lemma jdBase_normal (d : Datetime) (hy : 1 ≤ d.year) (hm1 : 1 ≤ d.month)
    (hm2 : d.month ≤ 12) :
    jdBase d = ((gJul (monthIdx d.year d.month) : ℤ) : ℚ) + (d.day : ℚ) +
      timeFrac d + 1718994.5 := by
  have hyc := ycIdx_monthIdx d.year d.month hm1 hm2
  have hmc := mcIdx_monthIdx d.year d.month hm1 hm2
  by_cases h3 : d.month < 3
  · have hyc' : ycIdx (monthIdx d.year d.month) = d.year - 1 := by rw [hyc, if_pos h3]
    have hmc' : mcIdx (monthIdx d.year d.month) = d.month + 12 := by rw [hmc, if_pos h3]
    have hys : yShift d = d.year - 1 := if_pos h3
    have hms : mShift d = d.month + 12 := if_pos h3
    rw [jdBase, gJul, hyc', hmc', hys, hms,
      itrunc_quarter _ (by omega), mtab_eq _ (by omega) (by omega)]
    push_cast
    ring
  · have hyc' : ycIdx (monthIdx d.year d.month) = d.year := by rw [hyc, if_neg h3]
    have hmc' : mcIdx (monthIdx d.year d.month) = d.month := by rw [hmc, if_neg h3]
    have hys : yShift d = d.year := if_neg h3
    have hms : mShift d = d.month := if_neg h3
    rw [jdBase, gJul, hyc', hmc', hys, hms,
      itrunc_quarter _ (by omega), mtab_eq _ (by omega) (by omega)]
    push_cast
    ring

lemma gregB_normal (d : Datetime) (hy : 1 ≤ d.year) (hm1 : 1 ≤ d.month)
    (hm2 : d.month ≤ 12) :
    gregB d = bGreg (monthIdx d.year d.month) := by
  have hyc := ycIdx_monthIdx d.year d.month hm1 hm2
  by_cases h3 : d.month < 3
  · have hyc' : ycIdx (monthIdx d.year d.month) = d.year - 1 := by rw [hyc, if_pos h3]
    have hys : yShift d = d.year - 1 := if_pos h3
    rw [gregB, bGreg, hyc', hys, itrunc_div100 _ (by omega),
      itrunc_quarter0 _ (Int.ediv_nonneg (by omega) (by norm_num))]
  · have hyc' : ycIdx (monthIdx d.year d.month) = d.year := by rw [hyc, if_neg h3]
    have hys : yShift d = d.year := if_neg h3
    rw [gregB, bGreg, hyc', hys, itrunc_div100 _ (by omega),
      itrunc_quarter0 _ (Int.ediv_nonneg (by omega) (by norm_num))]

lemma noLeap_normal (d : Datetime) (hm1 : 1 ≤ d.month) (hm2 : d.month ≤ 12) :
    NoLeapDayFromDate d = ((gNoLeap (monthIdx d.year d.month) : ℤ) : ℚ) +
      (d.day : ℚ) + timeFrac d - 1524.5 := by
  have hyc := ycIdx_monthIdx d.year d.month hm1 hm2
  have hmc := mcIdx_monthIdx d.year d.month hm1 hm2
  by_cases h3 : d.month < 3
  · have hyc' : ycIdx (monthIdx d.year d.month) = d.year - 1 := by rw [hyc, if_pos h3]
    have hmc' : mcIdx (monthIdx d.year d.month) = d.month + 12 := by rw [hmc, if_pos h3]
    have hys : yShift d = d.year - 1 := if_pos h3
    have hms : mShift d = d.month + 12 := if_pos h3
    simp only [NoLeapDayFromDate, gNoLeap, hyc', hmc', hys, hms]
    rw [if_pos h3, if_pos h3]
    rw [show (365 : ℚ) * (((d.year - 1 : ℤ) : ℚ) + 4716) =
        ((365 * ((d.year - 1) + 4716) : ℤ) : ℚ) by push_cast; ring,
      itrunc_intCast, mtab_eq _ (by omega) (by omega)]
    push_cast
    ring
  · have hyc' : ycIdx (monthIdx d.year d.month) = d.year := by rw [hyc, if_neg h3]
    have hmc' : mcIdx (monthIdx d.year d.month) = d.month := by rw [hmc, if_neg h3]
    have hys : yShift d = d.year := if_neg h3
    have hms : mShift d = d.month := if_neg h3
    simp only [NoLeapDayFromDate, gNoLeap, hyc', hmc', hys, hms]
    rw [if_neg h3, if_neg h3]
    rw [show (365 : ℚ) * ((d.year : ℚ) + 4716) = ((365 * (d.year + 4716) : ℤ) : ℚ) by
        push_cast; ring,
      itrunc_intCast, mtab_eq _ (by omega) (by omega)]
    push_cast
    ring

lemma allLeap_normal (d : Datetime) (hm1 : 1 ≤ d.month) (hm2 : d.month ≤ 12) :
    AllLeapFromDate d = ((gAllLeap (monthIdx d.year d.month) : ℤ) : ℚ) +
      (d.day : ℚ) + timeFrac d - 1524.5 := by
  have hyc := ycIdx_monthIdx d.year d.month hm1 hm2
  have hmc := mcIdx_monthIdx d.year d.month hm1 hm2
  by_cases h3 : d.month < 3
  · have hyc' : ycIdx (monthIdx d.year d.month) = d.year - 1 := by rw [hyc, if_pos h3]
    have hmc' : mcIdx (monthIdx d.year d.month) = d.month + 12 := by rw [hmc, if_pos h3]
    have hys : yShift d = d.year - 1 := if_pos h3
    have hms : mShift d = d.month + 12 := if_pos h3
    simp only [AllLeapFromDate, gAllLeap, hyc', hmc', hys, hms]
    rw [if_pos h3, if_pos h3]
    rw [show (366 : ℚ) * (((d.year - 1 : ℤ) : ℚ) + 4716) =
        ((366 * ((d.year - 1) + 4716) : ℤ) : ℚ) by push_cast; ring,
      itrunc_intCast, mtab_eq _ (by omega) (by omega)]
    push_cast
    ring
  · have hyc' : ycIdx (monthIdx d.year d.month) = d.year := by rw [hyc, if_neg h3]
    have hmc' : mcIdx (monthIdx d.year d.month) = d.month := by rw [hmc, if_neg h3]
    have hys : yShift d = d.year := if_neg h3
    have hms : mShift d = d.month := if_neg h3
    simp only [AllLeapFromDate, gAllLeap, hyc', hmc', hys, hms]
    rw [if_neg h3, if_neg h3]
    rw [show (366 : ℚ) * ((d.year : ℚ) + 4716) = ((366 * (d.year + 4716) : ℤ) : ℚ) by
        push_cast; ring,
      itrunc_intCast, mtab_eq _ (by omega) (by omega)]
    push_cast
    ring

lemma day360_normal (d : Datetime) (hm1 : 1 ≤ d.month) (hm2 : d.month ≤ 12) :
    Day360FromDate d = ((g360 (monthIdx d.year d.month) : ℤ) : ℚ) +
      (d.day : ℚ) + timeFrac d := by
  simp only [Day360FromDate, g360, idxYear_monthIdx d.year d.month hm1 hm2,
    idxMonth_monthIdx d.year d.month hm1 hm2]
  rw [show (360 : ℚ) * ((d.year : ℚ) + 4716) = ((360 * (d.year + 4716) : ℤ) : ℚ) by
      push_cast; ring,
    itrunc_intCast,
    show (30 : ℚ) * ((d.month : ℚ) - 1) = ((30 * (d.month - 1) : ℤ) : ℚ) by push_cast; ring,
    itrunc_intCast]
  push_cast
  ring

lemma mtab_div (mc : ℤ) (h1 : 3 ≤ mc) (h2 : mc ≤ 14) :
    mtab mc = 306 * (mc + 1) / 10 := by
  interval_cases mc <;> decide

lemma daysInMonth_pos (v : CalendarVariant) (y m : ℤ) : 1 ≤ daysInMonth v y m := by
  cases v <;> simp only [daysInMonth, mlen, CalendarVariant.leap] <;>
    first
    | omega
    | split_ifs <;> omega

lemma dimIdx_pos (v : CalendarVariant) (n : ℤ) : 1 ≤ dimIdx v n :=
  daysInMonth_pos v (idxYear n) (idxMonth n)

lemma dimIdx_monthIdx (v : CalendarVariant) (y m : ℤ) (h1 : 1 ≤ m) (h2 : m ≤ 12) :
    dimIdx v (monthIdx y m) = daysInMonth v y m := by
  unfold dimIdx
  rw [idxYear_monthIdx y m h1 h2, idxMonth_monthIdx y m h1 h2]

lemma chainG (v : CalendarVariant) (G : ℤ → ℤ) (t : ℤ)
    (hstep : ∀ n : ℤ, t ≤ n → G n + dimIdx v n ≤ G (n + 1))
    (n1 n2 : ℤ) (ht : t ≤ n1) (hlt : n1 < n2) :
    G n1 + dimIdx v n1 ≤ G n2 := by
  have key : ∀ m : ℤ, n1 + 1 ≤ m → G n1 + dimIdx v n1 ≤ G m := by
    intro m hm
    refine @Int.le_induction (fun x => G n1 + dimIdx v n1 ≤ G x) (n1 + 1) ?_ ?_ m hm
    · exact hstep n1 ht
    · intro k hk ih
      have hs := hstep k (by omega)
      have hd := dimIdx_pos v k
      omega
  exact key n2 (by omega)

lemma timeFrac_lt_of_lex (a b : Datetime)
    (ha1 : 0 ≤ a.minute) (ha2 : a.minute ≤ 59) (ha3 : 0 ≤ a.second) (ha4 : a.second ≤ 59)
    (ha5 : 0 ≤ a.microsecond) (ha6 : a.microsecond ≤ 999999)
    (hb1 : 0 ≤ b.minute) (hb2 : b.minute ≤ 59) (hb3 : 0 ≤ b.second) (hb4 : b.second ≤ 59)
    (hb5 : 0 ≤ b.microsecond) (hb6 : b.microsecond ≤ 999999)
    (h : a.hour < b.hour ∨ (a.hour = b.hour ∧ (a.minute < b.minute ∨ (a.minute = b.minute ∧
      (a.second < b.second ∨ (a.second = b.second ∧ a.microsecond < b.microsecond)))))) :
    timeFrac a < timeFrac b := by
  have ea : timeFrac a = ((3600000000 * a.hour + 60000000 * a.minute +
      1000000 * a.second + a.microsecond : ℤ) : ℚ) / 86400000000 := by
    unfold timeFrac; push_cast; ring
  have eb : timeFrac b = ((3600000000 * b.hour + 60000000 * b.minute +
      1000000 * b.second + b.microsecond : ℤ) : ℚ) / 86400000000 := by
    unfold timeFrac; push_cast; ring
  have hZ : (3600000000 * a.hour + 60000000 * a.minute + 1000000 * a.second +
      a.microsecond : ℤ) <
      3600000000 * b.hour + 60000000 * b.minute + 1000000 * b.second + b.microsecond := by
    omega
  rw [ea, eb]
  exact (div_lt_div_right (by norm_num)).mpr (by exact_mod_cast hZ)

lemma step_gJul_julian (n : ℤ) (hn : 12 ≤ n) :
    gJul n + dimIdx .julian n ≤ gJul (n + 1) := by
  have hb1 : mtab (mcIdx n) = 306 * (mcIdx n + 1) / 10 :=
    mtab_div _ (by unfold mcIdx; omega) (by unfold mcIdx; omega)
  have hb2 : mtab (mcIdx (n + 1)) = 306 * (mcIdx (n + 1) + 1) / 10 :=
    mtab_div _ (by unfold mcIdx; omega) (by unfold mcIdx; omega)
  simp only [gJul, dimIdx, daysInMonth, CalendarVariant.leap, mlen, julianLeap, hb1, hb2]
  simp only [ycIdx, mcIdx, idxYear, idxMonth]
  clear hb1 hb2
  obtain ⟨q, r, hr0, hr1, hqr⟩ : ∃ q r : ℤ, 0 ≤ r ∧ r < 12 ∧ n = 12 * q + r + 2 :=
    ⟨(n - 2) / 12, (n - 2) % 12, Int.emod_nonneg _ (by norm_num),
     Int.emod_lt_of_pos _ (by norm_num), by omega⟩
  subst hqr
  interval_cases r <;> split_ifs <;> omega

lemma step_gJul_mixed (n : ℤ) (hn : 12 ≤ n) :
    gJul n + dimIdx .mixedJulianGregorian n ≤ gJul (n + 1) := by
  have hb1 : mtab (mcIdx n) = 306 * (mcIdx n + 1) / 10 :=
    mtab_div _ (by unfold mcIdx; omega) (by unfold mcIdx; omega)
  have hb2 : mtab (mcIdx (n + 1)) = 306 * (mcIdx (n + 1) + 1) / 10 :=
    mtab_div _ (by unfold mcIdx; omega) (by unfold mcIdx; omega)
  simp only [gJul, dimIdx, daysInMonth, CalendarVariant.leap, mlen, julianLeap,
    gregorianLeap, hb1, hb2]
  simp only [ycIdx, mcIdx, idxYear, idxMonth]
  clear hb1 hb2
  obtain ⟨q, r, hr0, hr1, hqr⟩ : ∃ q r : ℤ, 0 ≤ r ∧ r < 12 ∧ n = 12 * q + r + 2 :=
    ⟨(n - 2) / 12, (n - 2) % 12, Int.emod_nonneg _ (by norm_num),
     Int.emod_lt_of_pos _ (by norm_num), by omega⟩
  subst hqr
  interval_cases r <;> split_ifs <;> omega

lemma step_gGreg_proleptic (n : ℤ) (hn : 12 ≤ n) :
    gGreg n + dimIdx .prolepticGregorian n ≤ gGreg (n + 1) := by
  have hb1 : mtab (mcIdx n) = 306 * (mcIdx n + 1) / 10 :=
    mtab_div _ (by unfold mcIdx; omega) (by unfold mcIdx; omega)
  have hb2 : mtab (mcIdx (n + 1)) = 306 * (mcIdx (n + 1) + 1) / 10 :=
    mtab_div _ (by unfold mcIdx; omega) (by unfold mcIdx; omega)
  simp only [gGreg, gJul, bGreg, dimIdx, daysInMonth, CalendarVariant.leap, mlen,
    gregorianLeap, hb1, hb2]
  simp only [ycIdx, mcIdx, idxYear, idxMonth]
  clear hb1 hb2
  obtain ⟨q, r, hr0, hr1, hqr⟩ : ∃ q r : ℤ, 0 ≤ r ∧ r < 12 ∧ n = 12 * q + r + 2 :=
    ⟨(n - 2) / 12, (n - 2) % 12, Int.emod_nonneg _ (by norm_num),
     Int.emod_lt_of_pos _ (by norm_num), by omega⟩
  subst hqr
  interval_cases r <;> split_ifs <;> omega

lemma step_gGreg_mixed (n : ℤ) (hn : 18993 ≤ n) :
    gGreg n + dimIdx .mixedJulianGregorian n ≤ gGreg (n + 1) := by
  have hb1 : mtab (mcIdx n) = 306 * (mcIdx n + 1) / 10 :=
    mtab_div _ (by unfold mcIdx; omega) (by unfold mcIdx; omega)
  have hb2 : mtab (mcIdx (n + 1)) = 306 * (mcIdx (n + 1) + 1) / 10 :=
    mtab_div _ (by unfold mcIdx; omega) (by unfold mcIdx; omega)
  simp only [gGreg, gJul, bGreg, dimIdx, daysInMonth, CalendarVariant.leap, mlen,
    julianLeap, gregorianLeap, hb1, hb2]
  simp only [ycIdx, mcIdx, idxYear, idxMonth]
  clear hb1 hb2
  obtain ⟨q, r, hr0, hr1, hqr⟩ : ∃ q r : ℤ, 0 ≤ r ∧ r < 12 ∧ n = 12 * q + r + 2 :=
    ⟨(n - 2) / 12, (n - 2) % 12, Int.emod_nonneg _ (by norm_num),
     Int.emod_lt_of_pos _ (by norm_num), by omega⟩
  subst hqr
  interval_cases r <;> split_ifs <;> omega

lemma step_gNoLeap (n : ℤ) (hn : 12 ≤ n) :
    gNoLeap n + dimIdx .noLeap n ≤ gNoLeap (n + 1) := by
  have hb1 : mtab (mcIdx n) = 306 * (mcIdx n + 1) / 10 :=
    mtab_div _ (by unfold mcIdx; omega) (by unfold mcIdx; omega)
  have hb2 : mtab (mcIdx (n + 1)) = 306 * (mcIdx (n + 1) + 1) / 10 :=
    mtab_div _ (by unfold mcIdx; omega) (by unfold mcIdx; omega)
  simp only [gNoLeap, dimIdx, daysInMonth, mlen, hb1, hb2]
  simp only [ycIdx, mcIdx, idxYear, idxMonth]
  clear hb1 hb2
  obtain ⟨q, r, hr0, hr1, hqr⟩ : ∃ q r : ℤ, 0 ≤ r ∧ r < 12 ∧ n = 12 * q + r + 2 :=
    ⟨(n - 2) / 12, (n - 2) % 12, Int.emod_nonneg _ (by norm_num),
     Int.emod_lt_of_pos _ (by norm_num), by omega⟩
  subst hqr
  interval_cases r <;> split_ifs <;> omega

lemma step_gAllLeap (n : ℤ) (hn : 12 ≤ n) :
    gAllLeap n + dimIdx .allLeap n ≤ gAllLeap (n + 1) := by
  have hb1 : mtab (mcIdx n) = 306 * (mcIdx n + 1) / 10 :=
    mtab_div _ (by unfold mcIdx; omega) (by unfold mcIdx; omega)
  have hb2 : mtab (mcIdx (n + 1)) = 306 * (mcIdx (n + 1) + 1) / 10 :=
    mtab_div _ (by unfold mcIdx; omega) (by unfold mcIdx; omega)
  simp only [gAllLeap, dimIdx, daysInMonth, mlen, hb1, hb2]
  simp only [ycIdx, mcIdx, idxYear, idxMonth]
  clear hb1 hb2
  obtain ⟨q, r, hr0, hr1, hqr⟩ : ∃ q r : ℤ, 0 ≤ r ∧ r < 12 ∧ n = 12 * q + r + 2 :=
    ⟨(n - 2) / 12, (n - 2) % 12, Int.emod_nonneg _ (by norm_num),
     Int.emod_lt_of_pos _ (by norm_num), by omega⟩
  subst hqr
  interval_cases r <;> split_ifs <;> omega

lemma step_g360 (n : ℤ) (hn : 12 ≤ n) :
    g360 n + dimIdx .day360 n ≤ g360 (n + 1) := by
  simp only [g360, dimIdx, daysInMonth]
  unfold idxYear idxMonth
  omega

lemma core_lt (v : CalendarVariant) (G : ℤ → ℤ) (t : ℤ)
    (hstep : ∀ n : ℤ, t ≤ n → G n + dimIdx v n ≤ G (n + 1))
    (d1 d2 : Datetime) (h1 : ValidDate v d1) (h2 : ValidDate v d2)
    (ht : t ≤ monthIdx d1.year d1.month) (hlt : civilLt d1 d2) :
    ((G (monthIdx d1.year d1.month) : ℤ) : ℚ) + (d1.day : ℚ) + timeFrac d1 <
      ((G (monthIdx d2.year d2.month) : ℤ) : ℚ) + (d2.day : ℚ) + timeFrac d2 := by
  obtain ⟨hm1a, hm1b, hd1a, hd1b, hh1a, hh1b, hmi1a, hmi1b, hs1a, hs1b, hu1a, hu1b⟩ := h1
  obtain ⟨hm2a, hm2b, hd2a, hd2b, hh2a, hh2b, hmi2a, hmi2b, hs2a, hs2b, hu2a, hu2b⟩ := h2
  have hf11 : timeFrac d1 < 1 := timeFrac_lt_one hh1b hmi1b hs1b hu1b
  have hf20 : 0 ≤ timeFrac d2 := timeFrac_nonneg hh2a hmi2a hs2a hu2a
  rcases lt_trichotomy (monthIdx d1.year d1.month) (monthIdx d2.year d2.month) with hn | hn | hn
  · have hch := chainG v G t hstep _ _ ht hn
    have hdim1 : d1.day ≤ dimIdx v (monthIdx d1.year d1.month) := by
      rw [dimIdx_monthIdx v d1.year d1.month hm1a hm1b]; exact hd1b
    have hZ : G (monthIdx d1.year d1.month) + d1.day + 1 ≤
        G (monthIdx d2.year d2.month) + d2.day := by omega
    have hQ : ((G (monthIdx d1.year d1.month) : ℤ) : ℚ) + (d1.day : ℚ) + 1 ≤
        ((G (monthIdx d2.year d2.month) : ℤ) : ℚ) + (d2.day : ℚ) := by exact_mod_cast hZ
    linarith
  · rw [hn]
    have hym : d1.year = d2.year ∧ d1.month = d2.month := by
      unfold monthIdx at hn; constructor <;> omega
    rcases hlt with hy | ⟨hye, hm | ⟨hme, hday | ⟨hde, htime⟩⟩⟩
    · exfalso; omega
    · exfalso; omega
    · have hQ : (d1.day : ℚ) + 1 ≤ (d2.day : ℚ) := by
        exact_mod_cast (by omega : d1.day + 1 ≤ d2.day)
      linarith
    · have hT := timeFrac_lt_of_lex d1 d2 hmi1a hmi1b hs1a hs1b hu1a hu1b
        hmi2a hmi2b hs2a hs2b hu2a hu2b htime
      have hde' : (d1.day : ℚ) = (d2.day : ℚ) := by exact_mod_cast hde
      linarith
  · exfalso
    unfold monthIdx at hn
    rcases hlt with hy | ⟨hye, hm | ⟨hme, _⟩⟩ <;> omega

lemma gJul_at_cut : gJul 18993 = 580161 := by decide

lemma gGreg_at_cut : gGreg 18993 = 580151 := by decide

lemma dim_mixed_at_cut : dimIdx .mixedJulianGregorian 18993 = 31 := by decide

lemma cutover_monthIdx (d : Datetime) (hy : 1 ≤ d.year)
    (hv : ValidDate .mixedJulianGregorian d) (hcut : 2299170.5 ≤ jdBase d) :
    18993 ≤ monthIdx d.year d.month := by
  obtain ⟨hm1, hm2, hd1, hd2, hh1, hh2, hmi1, hmi2, hs1, hs2, hu1, hu2⟩ := hv
  by_contra hcon
  push_neg at hcon
  have ht12 : (12 : ℤ) ≤ monthIdx d.year d.month := by unfold monthIdx; omega
  have hch := chainG .mixedJulianGregorian gJul 12 step_gJul_mixed _ 18993 ht12 hcon
  have hdim : d.day ≤ dimIdx .mixedJulianGregorian (monthIdx d.year d.month) := by
    rw [dimIdx_monthIdx _ d.year d.month hm1 hm2]; exact hd2
  have hf1 : timeFrac d < 1 := timeFrac_lt_one hh2 hmi2 hs2 hu2
  have hZ : gJul (monthIdx d.year d.month) + d.day ≤ 580161 := by
    have he := gJul_at_cut; omega
  have hQ : ((gJul (monthIdx d.year d.month) : ℤ) : ℚ) + (d.day : ℚ) ≤ 580161 := by
    exact_mod_cast hZ
  rw [jdBase_normal d hy hm1 hm2] at hcut
  linarith

lemma bGreg_at_cut : bGreg 18993 = -10 := by decide

/-- C6 (counterexample): monotonicity as claimed fails for years before 1:
under the proleptic-Gregorian variant the valid civil dates -99-02-28 and
-99-03-01 both convert to day number 1684959.5 (the toward-zero `int()`
truncations of the negative year terms collapse), so the earlier date does
not get a strictly smaller value. -/
theorem C6_counterexample :
    civilLt ⟨-99, 2, 28, 0, 0, 0, 0⟩ ⟨-99, 3, 1, 0, 0, 0, 0⟩ ∧
    ValidDate .prolepticGregorian ⟨-99, 2, 28, 0, 0, 0, 0⟩ ∧
    ValidDate .prolepticGregorian ⟨-99, 3, 1, 0, 0, 0, 0⟩ ∧
    ToDayCount .prolepticGregorian ⟨-99, 2, 28, 0, 0, 0, 0⟩ = .ok 1684959.5 ∧
    ToDayCount .prolepticGregorian ⟨-99, 3, 1, 0, 0, 0, 0⟩ = .ok 1684959.5 := by
  refine ⟨by decide, by decide, by decide, ?_, ?_⟩ <;>
    norm_num [ToDayCount, JulianDayFromDate, timeFrac, itrunc] <;> simp

/-- C6 (amended): strict monotonicity of the date-to-day-number conversions,
restricted to civil years at least 1: under every calendar variant, for valid
civil dates with the earlier one in year 1 or later, a civilly earlier
date maps to a strictly smaller day number (the restriction is needed:
see `C6_counterexample`). -/
theorem C6_monotonic (v : CalendarVariant) (d1 d2 : Datetime) (j1 j2 : ℚ)
    (h1 : ValidDate v d1) (h2 : ValidDate v d2) (hy : 1 ≤ d1.year)
    (hlt : civilLt d1 d2)
    (e1 : ToDayCount v d1 = .ok j1) (e2 : ToDayCount v d2 = .ok j2) :
    j1 < j2 := by
  have hy2 : 1 ≤ d2.year := by
    rcases hlt with h | ⟨h, _⟩ <;> omega
  have h1' := h1
  have h2' := h2
  obtain ⟨hm1a, hm1b, hd1a, hd1b, hh1a, hh1b, hmi1a, hmi1b, hs1a, hs1b, hu1a, hu1b⟩ := h1'
  obtain ⟨hm2a, hm2b, hd2a, hd2b, hh2a, hh2b, hmi2a, hmi2b, hs2a, hs2b, hu2a, hu2b⟩ := h2'
  have ht12 : (12 : ℤ) ≤ monthIdx d1.year d1.month := by unfold monthIdx; omega
  cases v with
  | mixedJulianGregorian =>
      simp only [ToDayCount, JulianDayFromDate_standard] at e1 e2
      have hn1 := jdBase_normal d1 hy hm1a hm1b
      have hn2 := jdBase_normal d2 hy2 hm2a hm2b
      have hB1 := gregB_normal d1 hy hm1a hm1b
      have hB2 := gregB_normal d2 hy2 hm2a hm2b
      by_cases hA1 : 2299170.5 ≤ jdBase d1
      · rw [if_pos hA1] at e1
        simp only [Except.ok.injEq] at e1
        by_cases hA2 : 2299170.5 ≤ jdBase d2
        · rw [if_pos hA2] at e2
          simp only [Except.ok.injEq] at e2
          subst e1; subst e2
          have hcut1 := cutover_monthIdx d1 hy h1 hA1
          have hcore := core_lt .mixedJulianGregorian gGreg 18993 step_gGreg_mixed
            d1 d2 h1 h2 hcut1 hlt
          simp only [gGreg] at hcore
          push_cast at hcore
          rw [hn1, hn2, hB1, hB2]
          push_cast
          linarith
        · exfalso
          have hcore := core_lt .mixedJulianGregorian gJul 12 step_gJul_mixed
            d1 d2 h1 h2 ht12 hlt
          have hbase : jdBase d1 < jdBase d2 := by
            rw [hn1, hn2]; linarith
          by_cases hB2' : jdBase d2 < 2299160.5
          · linarith
          · rw [if_neg hA2, if_neg hB2'] at e2
            simp at e2
      · rw [if_neg hA1] at e1
        by_cases hB1' : jdBase d1 < 2299160.5
        · rw [if_pos hB1'] at e1
          simp only [Except.ok.injEq] at e1
          subst e1
          by_cases hA2 : 2299170.5 ≤ jdBase d2
          · rw [if_pos hA2] at e2
            simp only [Except.ok.injEq] at e2
            subst e2
            have hcut2 := cutover_monthIdx d2 hy2 h2 hA2
            have hf20 : 0 ≤ timeFrac d2 := timeFrac_nonneg hh2a hmi2a hs2a hu2a
            have hf21 : timeFrac d2 < 1 := timeFrac_lt_one hh2b hmi2b hs2b hu2b
            have hkey : (2299160.5 : ℚ) ≤ jdBase d2 + (gregB d2 : ℚ) := by
              rw [hn2, hB2]
              rcases eq_or_lt_of_le hcut2 with he | hgt
              · rw [hn2] at hA2
                rw [← he] at hA2 ⊢
                have c1 : ((gJul 18993 : ℤ) : ℚ) = 580161 := by
                  rw [gJul_at_cut]; norm_num
                have c2 : ((bGreg 18993 : ℤ) : ℚ) = -10 := by
                  rw [bGreg_at_cut]; norm_num
                rw [c1] at hA2
                rw [c1, c2]
                have hday : (15 : ℤ) ≤ d2.day := by
                  by_contra hcon
                  push_neg at hcon
                  have : (d2.day : ℚ) ≤ 14 := by exact_mod_cast (by omega : d2.day ≤ 14)
                  linarith
                have hdayQ : (15 : ℚ) ≤ (d2.day : ℚ) := by exact_mod_cast hday
                linarith
              · have hch := chainG .mixedJulianGregorian gGreg 18993 step_gGreg_mixed
                  18993 _ le_rfl hgt
                have hZ : (580182 : ℤ) ≤ gGreg (monthIdx d2.year d2.month) := by
                  have c1 := gGreg_at_cut
                  have c2 := dim_mixed_at_cut
                  omega
                simp only [gGreg] at hZ
                have hQ : (580182 : ℚ) ≤ ((gJul (monthIdx d2.year d2.month) : ℤ) : ℚ) +
                    ((bGreg (monthIdx d2.year d2.month) : ℤ) : ℚ) := by
                  push_cast
                  exact_mod_cast hZ
                have hd2aQ : (1 : ℚ) ≤ (d2.day : ℚ) := by exact_mod_cast hd2a
                linarith
            linarith
          · rw [if_neg hA2] at e2
            by_cases hB2' : jdBase d2 < 2299160.5
            · rw [if_pos hB2'] at e2
              simp only [Except.ok.injEq] at e2
              subst e2
              have hcore := core_lt .mixedJulianGregorian gJul 12 step_gJul_mixed
                d1 d2 h1 h2 ht12 hlt
              rw [hn1, hn2]
              linarith
            · rw [if_neg hB2'] at e2
              simp at e2
        · rw [if_neg hB1'] at e1
          simp at e1
  | prolepticGregorian =>
      simp only [ToDayCount, JulianDayFromDate_proleptic, Except.ok.injEq] at e1 e2
      subst e1; subst e2
      have hn1 := jdBase_normal d1 hy hm1a hm1b
      have hn2 := jdBase_normal d2 hy2 hm2a hm2b
      have hB1 := gregB_normal d1 hy hm1a hm1b
      have hB2 := gregB_normal d2 hy2 hm2a hm2b
      have hcore := core_lt .prolepticGregorian gGreg 12 step_gGreg_proleptic
        d1 d2 h1 h2 ht12 hlt
      simp only [gGreg] at hcore
      push_cast at hcore
      rw [hn1, hn2, hB1, hB2]
      push_cast
      linarith
  | julian =>
      simp only [ToDayCount, JulianDayFromDate_julian, Except.ok.injEq] at e1 e2
      subst e1; subst e2
      have hn1 := jdBase_normal d1 hy hm1a hm1b
      have hn2 := jdBase_normal d2 hy2 hm2a hm2b
      have hcore := core_lt .julian gJul 12 step_gJul_julian d1 d2 h1 h2 ht12 hlt
      rw [hn1, hn2]
      linarith
  | noLeap =>
      have hc1 : ¬(d1.month = 2 ∧ d1.day = 29) := by
        rintro ⟨hq, hq'⟩
        rw [hq] at hd1b
        simp [daysInMonth] at hd1b
        omega
      have hc2 : ¬(d2.month = 2 ∧ d2.day = 29) := by
        rintro ⟨hq, hq'⟩
        rw [hq] at hd2b
        simp [daysInMonth] at hd2b
        omega
      simp only [ToDayCount] at e1 e2
      rw [if_neg hc1] at e1
      rw [if_neg hc2] at e2
      simp only [Except.ok.injEq] at e1 e2
      subst e1; subst e2
      rw [noLeap_normal d1 hm1a hm1b, noLeap_normal d2 hm2a hm2b]
      have hcore := core_lt .noLeap gNoLeap 12 step_gNoLeap d1 d2 h1 h2 ht12 hlt
      linarith
  | allLeap =>
      simp only [ToDayCount, Except.ok.injEq] at e1 e2
      subst e1; subst e2
      rw [allLeap_normal d1 hm1a hm1b, allLeap_normal d2 hm2a hm2b]
      have hcore := core_lt .allLeap gAllLeap 12 step_gAllLeap d1 d2 h1 h2 ht12 hlt
      linarith
  | day360 =>
      have hc1 : ¬(30 < d1.day) := by
        simp only [daysInMonth] at hd1b; omega
      have hc2 : ¬(30 < d2.day) := by
        simp only [daysInMonth] at hd2b; omega
      simp only [ToDayCount] at e1 e2
      rw [if_neg hc1] at e1
      rw [if_neg hc2] at e2
      simp only [Except.ok.injEq] at e1 e2
      subst e1; subst e2
      rw [day360_normal d1 hm1a hm1b, day360_normal d2 hm2a hm2b]
      have hcore := core_lt .day360 g360 12 step_g360 d1 d2 h1 h2 ht12 hlt
      linarith

/-- C6 (witness): the amended monotonicity theorem at a concrete input: under
the Julian variant, 2000-01-01 00:00 maps to 2451557.5 and 2000-01-02 00:00
to 2451558.5, and the theorem yields 2451557.5 < 2451558.5. -/
theorem C6_witness : (2451557.5 : ℚ) < 2451558.5 :=
  C6_monotonic .julian ⟨2000, 1, 1, 0, 0, 0, 0⟩ ⟨2000, 1, 2, 0, 0, 0, 0⟩
    2451557.5 2451558.5 (by decide) (by decide) (by decide) (by decide)
    (by norm_num [ToDayCount, JulianDayFromDate, timeFrac, itrunc] <;> simp)
    (by norm_num [ToDayCount, JulianDayFromDate, timeFrac, itrunc] <;> simp)
